import Mathlib

/-
Verification of the LemLib chassis motion primitives (src/src/lemlib/chassis/chassis.cpp)
and the gyro interface (src/include/lemlib/devices/gyro/gyro.hpp).

Floating-point quantities are modelled as real numbers; the PID controllers, the
competition-status query and the settle detector live outside the translated code and are
supplied as oracles. Helpers from repository files that are not part of the sources here
(lemlib/util.cpp, lemlib/pose.cpp) are modelled from the specification and marked as such.
-/

namespace LemLib

/-- Truncation toward zero, as the C library `fmod` uses. -/
noncomputable def truncR (x : ℝ) : ℤ :=
if 0 ≤ x then ⌊x⌋ else ⌈x⌉

/-- C library `fmod`: remainder with the dividend's sign, `x - y * trunc (x / y)`. -/
noncomputable def fmodR (x y : ℝ) : ℝ :=
x - y * (truncR (x / y) : ℝ)

/-- Modelled from the spec: radToDeg conversion helper (lemlib/util.cpp is not under src/). -/
noncomputable def radToDeg (x : ℝ) : ℝ :=
x * 180 / Real.pi

/-- Modelled from the spec: degToRad conversion helper (lemlib/util.cpp is not under src/). -/
noncomputable def degToRad (x : ℝ) : ℝ :=
x * Real.pi / 180

/-- Wrap a value into the interval `(-half, half]` by subtracting multiples of `2 * half`. -/
noncomputable def wrapSigned (half x : ℝ) : ℝ :=
x - 2 * half * (⌈(x - half) / (2 * half)⌉ : ℝ)

/-- Modelled from the spec: `angleError` with the radians flag set — the shortest signed
angular difference `target - current`, wrapped (lemlib/util.cpp is not under src/). -/
noncomputable def angleErrorRad (target current : ℝ) : ℝ :=
wrapSigned Real.pi (target - current)

/-- Modelled from the spec: `angleError` in degrees — the shortest signed angular
difference `target - current`, wrapped (lemlib/util.cpp is not under src/). -/
noncomputable def angleErrorDeg (target current : ℝ) : ℝ :=
wrapSigned 180 (target - current)

/-- C library `atan2`, defined piecewise from `Real.arctan`. -/
noncomputable def atan2 (y x : ℝ) : ℝ :=
if 0 < x then Real.arctan (y / x)
else if x < 0 then
  (if 0 ≤ y then Real.arctan (y / x) + Real.pi else Real.arctan (y / x) - Real.pi)
else
  (if 0 < y then Real.pi / 2 else if y < 0 then -(Real.pi / 2) else 0)

/-- Modelled from the spec: sign helper (lemlib/util.cpp is not under src/). -/
noncomputable def sgn (x : ℝ) : ℝ :=
if x < 0 then -1 else if 0 < x then 1 else 0

/-- C++ `std::clamp(v, lo, hi)`. -/
noncomputable def clampR (v lo hi : ℝ) : ℝ :=
if v < lo then lo else if hi < v then hi else v

/-- Modelled from the spec: slew helper — bounds the change from `current` toward `target`
by `maxChange` per tick, no bound when `maxChange = 0` (lemlib/util.cpp is not under src/). -/
noncomputable def slew (target current maxChange : ℝ) : ℝ :=
if maxChange = 0 then target
else if maxChange < target - current then current + maxChange
else if target - current < -maxChange then current - maxChange
else target

/-- Planar pose: x, y and heading theta (lemlib::Pose). -/
structure Pose where
  x : ℝ
  y : ℝ
  theta : ℝ

/-- Modelled from the spec: Pose distance (lemlib/pose.cpp is not under src/). -/
noncomputable def Pose.dist (p q : Pose) : ℝ :=
Real.sqrt ((p.x - q.x) ^ 2 + (p.y - q.y) ^ 2)

/-- Modelled from the spec: Pose angle-to — the bearing of `q` as seen from `p`, via
`atan2` (lemlib/pose.cpp is not under src/). -/
noncomputable def Pose.angleTo (p q : Pose) : ℝ :=
atan2 (q.y - p.y) (q.x - p.x)

/-- Chassis::moveTo line 211: `pose.theta = std::fmod(pose.theta, 2 * M_PI)`. -/
noncomputable def normPose (p : Pose) : Pose :=
⟨p.x, p.y, fmodR p.theta (2 * Real.pi)⟩

/-- Chassis::moveTo line 193: the target theta argument is given in degrees and stored as
`fmod(degToRad(theta), 2 * M_PI)`. -/
noncomputable def moveToTarget (x y thetaDeg : ℝ) : Pose :=
⟨x, y, fmodR (degToRad thetaDeg) (2 * Real.pi)⟩

/-- Configuration of one Chassis::moveTo call: target pose (theta already converted),
lead parameter, and the lateral slew rate from the chassis settings. -/
structure MoveToCfg where
  target : Pose
  lead : ℝ
  slewRate : ℝ

/-- State carried across Chassis::moveTo loop iterations: the close flag, the (mutable)
maxSpeed cap and the previous tick's lateral power. -/
structure MoveToState where
  close : Bool
  maxSpeed : ℝ
  prevLateralPower : ℝ

/-- Per-tick inputs of Chassis::moveTo: the pose read from odometry and the outputs of the
two PID controllers as oracle functions of the error fed to them. -/
structure MoveToIn where
  pose : Pose
  latPID : ℝ → ℝ
  angPID : ℝ → ℝ

/-- All intermediate values of one Chassis::moveTo loop iteration. -/
structure MoveToOut where
  pose : Pose
  targetDist : ℝ
  carrot : Pose
  e1 : ℝ
  e2 : ℝ
  angularError : ℝ
  lateralError : ℝ
  lateralPowerPre : ℝ
  angularPower : ℝ
  overturn : ℝ
  lateralPower : ℝ
  closeAfter : Bool
  maxSpeedAfter : ℝ
  leftPowerPre : ℝ
  rightPowerPre : ℝ
  powerScale : ℝ
  leftPower : ℝ
  rightPower : ℝ

/-- Chassis::moveTo lines 215-216: the carrot point, offset from the target backward along
the target heading by `lead * targetDist`, with its heading set to face the carrot from
the robot. -/
noncomputable def boomerangCarrot (target : Pose) (lead : ℝ) (pose : Pose) (targetDist : ℝ) : Pose :=
let cx := target.x - Real.sin target.theta * lead * targetDist
let cy := target.y - Real.cos target.theta * lead * targetDist
⟨cx, cy, Real.pi / 2 - pose.angleTo ⟨cx, cy, 0⟩⟩

/-- Chassis::moveTo line 225: pick the smaller-magnitude angular error candidate, the
second on ties. -/
noncomputable def chooseAngle (e1 e2 : ℝ) : ℝ :=
if |e1| < |e2| then e1 else e2

/-- Chassis::moveTo lines 248-249: the overturn correction applied to the lateral power. -/
noncomputable def overturnFix (cap a l : ℝ) : ℝ :=
if 0 < |a| + |l| - cap then l - sgn l * (|a| + |l| - cap) else l

/-- Chassis::moveTo lines 262-266: rescale both sides by `max(|l|, |r|) / cap` when that
quotient exceeds one. -/
noncomputable def scalePowers (cap l r : ℝ) : ℝ × ℝ :=
if 1 < max |l| |r| / cap then (l / (max |l| |r| / cap), r / (max |l| |r| / cap)) else (l, r)

/-- One iteration of the Chassis::moveTo main loop body (chassis.cpp lines 208-275), with
the two PID controller outputs supplied as oracles. -/
noncomputable def moveToTick (cfg : MoveToCfg) (st : MoveToState) (inp : MoveToIn) : MoveToOut :=
let pose := normPose inp.pose
let targetDist := cfg.target.dist pose
let carrot := if st.close then cfg.target else boomerangCarrot cfg.target cfg.lead pose targetDist
let e1 := angleErrorRad carrot.theta pose.theta
let e2 := angleErrorRad (carrot.theta + Real.pi) pose.theta
let angularError := chooseAngle e1 e2
let lateralError :=
  if st.close then
    pose.dist cfg.target * Real.cos (angleErrorRad (Real.pi / 2 - pose.angleTo cfg.target) pose.theta)
  else pose.dist carrot * Real.cos e1
let lp1 := clampR (inp.latPID lateralError) (-st.maxSpeed) st.maxSpeed
let lp2 := if st.close then lp1 else slew lp1 st.prevLateralPower cfg.slewRate
let lp3 := lp2 * |Real.cos angularError|
let ap := inp.angPID (radToDeg angularError)
let lp4 := overturnFix st.maxSpeed ap lp3
let closeA := if pose.dist cfg.target < 7.5 then true else st.close
let msA :=
  if pose.dist cfg.target < 7.5 then
    (if |st.prevLateralPower| < 30 then 30 else |st.prevLateralPower|)
  else st.maxSpeed
let lp := lp4 + ap
let rp := lp4 - ap
let lr := scalePowers msA lp rp
⟨pose, targetDist, carrot, e1, e2, angularError, lateralError, lp3, ap,
 |ap| + |lp3| - st.maxSpeed, lp4, closeA, msA, lp, rp, max |lp| |rp| / msA, lr.1, lr.2⟩

/-- Chassis::moveTo line 273 and the in-loop mutations: the state handed to the next tick. -/
def moveToNext (out : MoveToOut) : MoveToState :=
⟨out.closeAfter, out.maxSpeedAfter, out.lateralPower⟩

/-- The state of Chassis::moveTo before tick `n`, starting from lines 195-199
(`close = false`, caller-supplied `maxSpeed`, `prevLateralPower = 0`). -/
noncomputable def moveToRun (cfg : MoveToCfg) (ms0 : ℝ) (inputs : ℕ → MoveToIn) : ℕ → MoveToState
| 0 => ⟨false, ms0, 0⟩
| n + 1 => moveToNext (moveToTick cfg (moveToRun cfg ms0 inputs n) (inputs n))

/-- The Chassis::moveTo loop (chassis.cpp lines 208-280): runs while the competition
status matches the snapshot `c0` and the lateral controller is not settled or fewer than
300 ms (30 ticks of the 10 ms delay) have elapsed; on exit appends the final zero-power
command of lines 279-280. Fuel-bounded; `none` means the loop was still running. -/
noncomputable def moveToLoop (cfg : MoveToCfg) (inputs : ℕ → MoveToIn) (comp : ℕ → ℕ)
    (settled : ℕ → Bool) (c0 : ℕ) : ℕ → ℕ → MoveToState → List (ℝ × ℝ) → Option (List (ℝ × ℝ))
| 0, _, _, _ => none
| fuel + 1, n, st, acc =>
  if comp n = c0 ∧ (settled n = false ∨ 10 * n < 300) then
    moveToLoop cfg inputs comp settled c0 fuel (n + 1) (moveToNext (moveToTick cfg st (inputs n)))
      (acc ++ [((moveToTick cfg st (inputs n)).leftPower, (moveToTick cfg st (inputs n)).rightPower)])
  else some (acc ++ [(0, 0)])

/-- Exit control of the Chassis::moveTo loop in isolation: the guard of line 208 checked
against the oracles only, returning the tick index at which the loop exits. -/
def moveToExit (comp : ℕ → ℕ) (settled : ℕ → Bool) (c0 : ℕ) : ℕ → ℕ → Option ℕ
| 0, _ => none
| fuel + 1, n =>
  if comp n = c0 ∧ (settled n = false ∨ 10 * n < 300) then moveToExit comp settled c0 fuel (n + 1)
  else some n

/-- Per-tick inputs of Chassis::turnTo: the pose read from odometry and the angular PID
output as an oracle function of the error fed to it. -/
structure TurnToIn where
  pose : Pose
  pid : ℝ → ℝ

/-- Intermediate values of one Chassis::turnTo loop iteration. -/
structure TurnToOut where
  poseTheta : ℝ
  targetTheta : ℝ
  deltaTheta : ℝ
  rawPower : ℝ
  motorPower : ℝ
  leftPower : ℝ
  rightPower : ℝ

/-- Chassis::turnTo lines 162-163: the two-branch speed cap. -/
noncomputable def turnClamp (maxSpeed raw : ℝ) : ℝ :=
if maxSpeed < raw then maxSpeed else if raw < -maxSpeed then -maxSpeed else raw

/-- One iteration of the Chassis::turnTo loop body (chassis.cpp lines 147-169), with the
angular PID output supplied as an oracle. -/
noncomputable def turnToTick (x y : ℝ) (reversed : Bool) (maxSpeed : ℝ) (inp : TurnToIn) : TurnToOut :=
let poseTheta := if reversed then fmodR (inp.pose.theta - 180) 360 else fmodR inp.pose.theta 360
let targetTheta := fmodR (radToDeg (Real.pi / 2 - atan2 (y - inp.pose.y) (x - inp.pose.x))) 360
let deltaTheta := angleErrorDeg targetTheta poseTheta
let raw := inp.pid deltaTheta
let mp := turnClamp maxSpeed raw
⟨poseTheta, targetTheta, deltaTheta, raw, mp, -mp, mp⟩

/-- The Chassis::turnTo loop (chassis.cpp lines 147-174): runs while the competition
status matches the snapshot `c0` and the controller is not settled; on exit appends the
final zero-power command of lines 173-174. Fuel-bounded. -/
noncomputable def turnToLoop (x y : ℝ) (reversed : Bool) (maxSpeed : ℝ) (inputs : ℕ → TurnToIn)
    (comp : ℕ → ℕ) (settled : ℕ → Bool) (c0 : ℕ) : ℕ → ℕ → List (ℝ × ℝ) → Option (List (ℝ × ℝ))
| 0, _, _ => none
| fuel + 1, n, acc =>
  if comp n = c0 ∧ settled n = false then
    turnToLoop x y reversed maxSpeed inputs comp settled c0 fuel (n + 1)
      (acc ++ [((turnToTick x y reversed maxSpeed (inputs n)).leftPower,
                (turnToTick x y reversed maxSpeed (inputs n)).rightPower)])
  else some (acc ++ [(0, 0)])

/-- gyro.hpp line 14: `template <typename T> bool gyroGetRotation(const T& gyro)` — the
free-function access path of the gyro interface is declared with return type `bool`, so a
specialization reporting the underlying rotation reading `r` yields the truth value of
`r != 0` (the C++ float-to-bool conversion). -/
def gyroGetRotation (r : ℚ) : Bool :=
decide (r ≠ 0)

/-- gyro.hpp lines 105-106: `float TypeErasedGyro::getRotation() const` returns
`gyroGetRotation(actual_gyro)`, implicitly converting the bool back to float. -/
def typeErasedGyroGetRotation (r : ℚ) : ℚ :=
if gyroGetRotation r then 1 else 0

/-- gyro.hpp line 76: AnyGyro::getRotation delegates to the type-erased gyro. -/
def anyGyroGetRotation (r : ℚ) : ℚ :=
typeErasedGyroGetRotation r

/-- Concrete moveTo call: target (10, 0) with heading 0, lead 0, slew rate 5. -/
noncomputable def cfgA : MoveToCfg :=
⟨⟨10, 0, 0⟩, 0, 5⟩

/-- Loop-entry state with the default maxSpeed 127. -/
noncomputable def stA : MoveToState :=
⟨false, 127, 0⟩

/-- Concrete tick input: robot at the origin facing heading 7π/4, PID oracles zero. -/
noncomputable def inpA : MoveToIn :=
⟨⟨0, 0, 7 * Real.pi / 4⟩, fun _ => 0, fun _ => 0⟩

/-- Concrete moveTo call: target the origin with heading 0, lead 0, slew rate 1000. -/
noncomputable def cfgB : MoveToCfg :=
⟨⟨0, 0, 0⟩, 0, 1000⟩

/-- Concrete tick input: robot at (0, -5) facing the target, lateral PID output constant
100, angular PID output constant 0. -/
noncomputable def inpB : MoveToIn :=
⟨⟨0, -5, 0⟩, fun _ => 100, fun _ => 0⟩

/-- Constant input stream built from inpB. -/
noncomputable def inputsB : ℕ → MoveToIn :=
fun _ => inpB

/-- Concrete moveTo call: target the origin with heading 0, lead 1/2, slew rate 5. -/
noncomputable def cfgC : MoveToCfg :=
⟨⟨0, 0, 0⟩, 1 / 2, 5⟩

/-- Constant input stream: robot at (5, 0) facing heading 0, PID oracles zero. -/
noncomputable def inputsC : ℕ → MoveToIn :=
fun _ => ⟨⟨5, 0, 0⟩, fun _ => 0, fun _ => 0⟩

/-- Concrete tick input: robot at (0, -10) facing the target, lateral PID output constant
50, angular PID output constant 200 (the angular controller is never clamped in moveTo). -/
noncomputable def inpD : MoveToIn :=
⟨⟨0, -10, 0⟩, fun _ => 50, fun _ => 200⟩

/-- Concrete tick input: as inpD but with angular PID output constant 100. -/
noncomputable def inpD2 : MoveToIn :=
⟨⟨0, -10, 0⟩, fun _ => 50, fun _ => 100⟩

theorem lastOfAppendZero (acc : List (ℝ × ℝ)) :
    (acc ++ [((0 : ℝ), (0 : ℝ))]).getLast? = some (0, 0) := by
  rw [List.getLast?_append_of_ne_nil _ (by simp)]
  rfl

theorem wrapSigned_eq (half x : ℝ) (k : ℤ) (h0 : 0 < half)
    (h1 : -half < x - 2 * half * k) (h2 : x - 2 * half * k ≤ half) :
    wrapSigned half x = x - 2 * half * k := by
  have h2h : 0 < 2 * half := by linarith
  have hk : ⌈(x - half) / (2 * half)⌉ = k := by
    rw [Int.ceil_eq_iff]
    constructor
    · rw [lt_div_iff₀ h2h]
      nlinarith
    · rw [div_le_iff₀ h2h]
      nlinarith
  rw [wrapSigned, hk]

theorem cos_wrapSigned_pi (x : ℝ) : Real.cos (wrapSigned Real.pi x) = Real.cos x := by
  rw [wrapSigned]
  have h : x - 2 * Real.pi * (⌈(x - Real.pi) / (2 * Real.pi)⌉ : ℝ)
      = x + ((-⌈(x - Real.pi) / (2 * Real.pi)⌉ : ℤ) : ℝ) * (2 * Real.pi) := by
    push_cast
    ring
  rw [h, Real.cos_add_int_mul_two_pi]

theorem cos_angleErrorRad (t c : ℝ) : Real.cos (angleErrorRad t c) = Real.cos (t - c) := by
  rw [angleErrorRad, cos_wrapSigned_pi]

theorem fmodR_eq_self (x y : ℝ) (h0 : 0 ≤ x) (hxy : x < y) : fmodR x y = x := by
  have hy : 0 < y := lt_of_le_of_lt h0 hxy
  have h1 : 0 ≤ x / y := div_nonneg h0 hy.le
  have h2 : x / y < 1 := (div_lt_one hy).mpr hxy
  rw [fmodR, truncR, if_pos h1, Int.floor_eq_zero_iff.mpr (Set.mem_Ico.mpr ⟨h1, h2⟩)]
  push_cast
  ring

theorem sqrt_eval (a b : ℝ) (hb : 0 ≤ b) (h : a = b ^ 2) : Real.sqrt a = b := by
  rw [h, Real.sqrt_sq hb]

theorem atan2_zero_pos (x : ℝ) (hx : 0 < x) : atan2 0 x = 0 := by
  rw [atan2, if_pos hx, zero_div, Real.arctan_zero]

theorem atan2_pos_zero (y : ℝ) (hy : 0 < y) : atan2 y 0 = Real.pi / 2 := by
  rw [atan2, if_neg (lt_irrefl 0), if_neg (lt_irrefl 0), if_pos hy]

theorem angleErrorRad_eq (t c : ℝ) (k : ℤ) (h1 : -Real.pi < t - c - 2 * Real.pi * k)
    (h2 : t - c - 2 * Real.pi * k ≤ Real.pi) :
    angleErrorRad t c = t - c - 2 * Real.pi * k := by
  rw [angleErrorRad, wrapSigned_eq Real.pi (t - c) k Real.pi_pos h1 h2]

theorem tickB_eval : moveToTick cfgB stA inpB =
    ⟨⟨0, -5, 0⟩, 5, ⟨0, 0, 0⟩, 0, Real.pi, 0, 5, 100, 0, -27, 100, true, 30, 100, 100,
     10 / 3, 30, 30⟩ := by
  have hpi := Real.pi_pos
  have hfm : fmodR 0 (2 * Real.pi) = 0 := fmodR_eq_self _ _ le_rfl (by linarith)
  have h25 : Real.sqrt 25 = 5 := sqrt_eval 25 5 (by norm_num) (by norm_num)
  have hat : atan2 5 0 = Real.pi / 2 := atan2_pos_zero 5 (by norm_num)
  have he1 : angleErrorRad 0 0 = 0 := by
    have h := angleErrorRad_eq 0 0 0 (by push_cast; linarith) (by push_cast; linarith)
    simpa using h
  have he2 : angleErrorRad Real.pi 0 = Real.pi := by
    have h := angleErrorRad_eq Real.pi 0 0 (by push_cast; linarith) (by push_cast; linarith)
    simpa using h
  have hch : chooseAngle 0 Real.pi = 0 := by
    rw [chooseAngle, if_pos]
    rw [abs_zero, abs_of_pos hpi]
    exact hpi
  have ha100 : |(100 : ℝ)| = 100 := abs_of_nonneg (by norm_num)
  norm_num [moveToTick, cfgB, stA, inpB, normPose, boomerangCarrot, Pose.dist, Pose.angleTo,
    overturnFix, scalePowers, clampR, slew, radToDeg, hfm, h25, hat, he1, he2, hch, ha100]

theorem tickA_eval : moveToTick cfgA stA inpA =
    ⟨⟨0, 0, 7 * Real.pi / 4⟩, 10, ⟨10, 0, Real.pi / 2⟩, 3 * Real.pi / 4, -(Real.pi / 4),
     -(Real.pi / 4), -(5 * Real.sqrt 2), 0, 0, -127, 0, false, 127, 0, 0, 0, 0, 0⟩ := by
  have hpi := Real.pi_pos
  have hfm : fmodR (7 * Real.pi / 4) (2 * Real.pi) = 7 * Real.pi / 4 :=
    fmodR_eq_self _ _ (by linarith) (by linarith)
  have h100 : Real.sqrt 100 = 10 := sqrt_eval 100 10 (by norm_num) (by norm_num)
  have hat : atan2 0 10 = 0 := atan2_zero_pos 10 (by norm_num)
  have he1 : angleErrorRad (Real.pi / 2) (7 * Real.pi / 4) = 3 * Real.pi / 4 := by
    have h := angleErrorRad_eq (Real.pi / 2) (7 * Real.pi / 4) (-1) (by push_cast; linarith)
      (by push_cast; linarith)
    rw [h]
    push_cast
    ring
  have he2 : angleErrorRad (Real.pi / 2 + Real.pi) (7 * Real.pi / 4) = -(Real.pi / 4) := by
    have h := angleErrorRad_eq (Real.pi / 2 + Real.pi) (7 * Real.pi / 4) 0 (by push_cast; linarith)
      (by push_cast; linarith)
    rw [h]
    push_cast
    ring
  have hch : chooseAngle (3 * Real.pi / 4) (-(Real.pi / 4)) = -(Real.pi / 4) := by
    rw [chooseAngle, if_neg]
    rw [abs_of_pos (by linarith), abs_neg, abs_of_pos (by linarith)]
    intro h
    linarith
  have hcos34 : Real.cos (3 * Real.pi / 4) = -(Real.sqrt 2 / 2) := by
    rw [show (3 * Real.pi / 4 : ℝ) = Real.pi - Real.pi / 4 by ring, Real.cos_pi_sub,
      Real.cos_pi_div_four]
  norm_num [moveToTick, cfgA, stA, inpA, normPose, boomerangCarrot, Pose.dist, Pose.angleTo,
    overturnFix, scalePowers, clampR, slew, radToDeg, hfm, h100, hat, he1, he2, hch, hcos34]
  ring

theorem tickD_eval : moveToTick cfgB stA inpD =
    ⟨⟨0, -10, 0⟩, 10, ⟨0, 0, 0⟩, 0, Real.pi, 0, 10, 50, 200, 123, -73, false, 127, 127, -273,
     273 / 127, 16129 / 273, -127⟩ := by
  have hpi := Real.pi_pos
  have hfm : fmodR 0 (2 * Real.pi) = 0 := fmodR_eq_self _ _ le_rfl (by linarith)
  have h100 : Real.sqrt 100 = 10 := sqrt_eval 100 10 (by norm_num) (by norm_num)
  have hat : atan2 10 0 = Real.pi / 2 := atan2_pos_zero 10 (by norm_num)
  have he1 : angleErrorRad 0 0 = 0 := by
    have h := angleErrorRad_eq 0 0 0 (by push_cast; linarith) (by push_cast; linarith)
    simpa using h
  have he2 : angleErrorRad Real.pi 0 = Real.pi := by
    have h := angleErrorRad_eq Real.pi 0 0 (by push_cast; linarith) (by push_cast; linarith)
    simpa using h
  have hch : chooseAngle 0 Real.pi = 0 := by
    rw [chooseAngle, if_pos]
    rw [abs_zero, abs_of_pos hpi]
    exact hpi
  have hsgn : sgn 50 = 1 := by
    rw [sgn, if_neg (by norm_num), if_pos (by norm_num)]
  have ha50 : |(50 : ℝ)| = 50 := abs_of_nonneg (by norm_num)
  have ha200 : |(200 : ℝ)| = 200 := abs_of_nonneg (by norm_num)
  have ha73 : |(-73 : ℝ)| = 73 := by rw [abs_of_nonpos (by norm_num)]; norm_num
  have ha127 : |(127 : ℝ)| = 127 := abs_of_nonneg (by norm_num)
  have ha273 : |(-273 : ℝ)| = 273 := by rw [abs_of_nonpos (by norm_num)]; norm_num
  norm_num [moveToTick, cfgB, stA, inpD, normPose, boomerangCarrot, Pose.dist, Pose.angleTo,
    overturnFix, scalePowers, clampR, slew, radToDeg, hfm, h100, hat, he1, he2, hch, hsgn,
    ha50, ha200, ha73, ha127, ha273]

theorem tickD2_eval : moveToTick cfgB stA inpD2 =
    ⟨⟨0, -10, 0⟩, 10, ⟨0, 0, 0⟩, 0, Real.pi, 0, 10, 50, 100, 23, 27, false, 127, 127, -73,
     1, 127, -73⟩ := by
  have hpi := Real.pi_pos
  have hfm : fmodR 0 (2 * Real.pi) = 0 := fmodR_eq_self _ _ le_rfl (by linarith)
  have h100 : Real.sqrt 100 = 10 := sqrt_eval 100 10 (by norm_num) (by norm_num)
  have hat : atan2 10 0 = Real.pi / 2 := atan2_pos_zero 10 (by norm_num)
  have he1 : angleErrorRad 0 0 = 0 := by
    have h := angleErrorRad_eq 0 0 0 (by push_cast; linarith) (by push_cast; linarith)
    simpa using h
  have he2 : angleErrorRad Real.pi 0 = Real.pi := by
    have h := angleErrorRad_eq Real.pi 0 0 (by push_cast; linarith) (by push_cast; linarith)
    simpa using h
  have hch : chooseAngle 0 Real.pi = 0 := by
    rw [chooseAngle, if_pos]
    rw [abs_zero, abs_of_pos hpi]
    exact hpi
  have hsgn : sgn 50 = 1 := by
    rw [sgn, if_neg (by norm_num), if_pos (by norm_num)]
  have ha50 : |(50 : ℝ)| = 50 := abs_of_nonneg (by norm_num)
  have ha100 : |(100 : ℝ)| = 100 := abs_of_nonneg (by norm_num)
  have ha27 : |(27 : ℝ)| = 27 := abs_of_nonneg (by norm_num)
  have ha73 : |(-73 : ℝ)| = 73 := by rw [abs_of_nonpos (by norm_num)]; norm_num
  have ha127 : |(127 : ℝ)| = 127 := abs_of_nonneg (by norm_num)
  norm_num [moveToTick, cfgB, stA, inpD2, normPose, boomerangCarrot, Pose.dist, Pose.angleTo,
    overturnFix, scalePowers, clampR, slew, radToDeg, hfm, h100, hat, he1, he2, hch, hsgn,
    ha50, ha100, ha27, ha73, ha127]

theorem distC_eval : (normPose (inputsC 0).pose).dist cfgC.target = 5 := by
  have hpi := Real.pi_pos
  have hfm : fmodR 0 (2 * Real.pi) = 0 := fmodR_eq_self _ _ le_rfl (by linarith)
  have h25 : Real.sqrt 25 = 5 := sqrt_eval 25 5 (by norm_num) (by norm_num)
  norm_num [inputsC, cfgC, normPose, Pose.dist, hfm, h25]

theorem carrotC_y : (moveToTick cfgC (moveToRun cfgC 127 inputsC 0) (inputsC 0)).carrot.y
    = -(5 / 2) := by
  have hpi := Real.pi_pos
  have hfm : fmodR 0 (2 * Real.pi) = 0 := fmodR_eq_self _ _ le_rfl (by linarith)
  have h25 : Real.sqrt 25 = 5 := sqrt_eval 25 5 (by norm_num) (by norm_num)
  norm_num [moveToTick, moveToRun, cfgC, inputsC, normPose, boomerangCarrot, Pose.dist,
    hfm, h25]

theorem distNonneg (p q : Pose) : 0 ≤ Pose.dist p q :=
  Real.sqrt_nonneg _

theorem abs_chooseAngle (e1 e2 : ℝ) : |chooseAngle e1 e2| = min |e1| |e2| := by
  rw [chooseAngle]
  split_ifs with h
  · rw [min_eq_left h.le]
  · rw [min_eq_right (not_lt.mp h)]

theorem abs_cos_shift (c p : ℝ) :
    |Real.cos (angleErrorRad (c + Real.pi) p)| = |Real.cos (angleErrorRad c p)| := by
  rw [cos_angleErrorRad, cos_angleErrorRad, show c + Real.pi - p = (c - p) + Real.pi by ring,
    Real.cos_add_pi, abs_neg]

theorem abs_cos_chooseAngle (c p : ℝ) :
    |Real.cos (chooseAngle (angleErrorRad c p) (angleErrorRad (c + Real.pi) p))| =
    |Real.cos (angleErrorRad c p)| := by
  rw [chooseAngle]
  split_ifs with h
  · rfl
  · exact abs_cos_shift c p

theorem overturnFix_eq (cap a l : ℝ) (h : 0 < |a| + |l| - cap) :
    overturnFix cap a l = l - sgn l * (|a| + |l| - cap) := by
  rw [overturnFix, if_pos h]

theorem overturnFix_sum (cap a l : ℝ) (h : 0 < |a| + |l| - cap) (ha : |a| ≤ cap) :
    |a| + |overturnFix cap a l| = cap := by
  rw [overturnFix, if_pos h]
  rcases lt_trichotomy l 0 with hl | hl | hl
  · have hsgn : sgn l = -1 := by rw [sgn, if_pos hl]
    have habs : |l| = -l := abs_of_neg hl
    rw [hsgn, habs]
    have hx : l - -1 * (|a| + -l - cap) = |a| - cap := by ring
    rw [hx]
    have habs2 : abs (|a| - cap) = -(|a| - cap) := abs_of_nonpos (by linarith)
    rw [habs2]
    ring
  · subst hl
    rw [abs_zero] at h
    linarith
  · have hsgn : sgn l = 1 := by rw [sgn, if_neg (not_lt.mpr hl.le), if_pos hl]
    have habs : |l| = l := abs_of_pos hl
    rw [hsgn, habs]
    have hx : l - 1 * (|a| + l - cap) = cap - |a| := by ring
    rw [hx]
    have habs2 : abs (cap - |a|) = cap - |a| := abs_of_nonneg (by linarith)
    rw [habs2]
    ring

theorem scalePowers_eq (cap l r : ℝ) (h : 1 < max |l| |r| / cap) :
    scalePowers cap l r = (l / (max |l| |r| / cap), r / (max |l| |r| / cap)) := by
  rw [scalePowers, if_pos h]

theorem scalePowers_max (cap l r : ℝ) (hcap : 0 < cap) (h : cap < max |l| |r|) :
    max |(scalePowers cap l r).1| |(scalePowers cap l r).2| = cap ∧
    (scalePowers cap l r).1 * r = l * (scalePowers cap l r).2 := by
  have hsc : 1 < max |l| |r| / cap := (one_lt_div hcap).mpr h
  have hm0 : 0 < max |l| |r| := lt_trans hcap h
  have hs : 0 < max |l| |r| / cap := lt_trans one_pos hsc
  rw [scalePowers_eq cap l r hsc]
  constructor
  · show max |l / (max |l| |r| / cap)| |r / (max |l| |r| / cap)| = cap
    have e1 : |l / (max |l| |r| / cap)| = |l| / (max |l| |r| / cap) := by
      rw [abs_div, abs_of_pos hs]
    have e2 : |r / (max |l| |r| / cap)| = |r| / (max |l| |r| / cap) := by
      rw [abs_div, abs_of_pos hs]
    rw [e1, e2, max_div_div_right hs.le, div_div_eq_mul_div, mul_comm, mul_div_assoc,
      div_self hm0.ne', mul_one]
  · show l / (max |l| |r| / cap) * r = l * (r / (max |l| |r| / cap))
    ring

theorem turnClamp_lb (ms raw : ℝ) (h : 0 ≤ ms) : -ms ≤ turnClamp ms raw := by
  rw [turnClamp]
  split_ifs with h1 h2
  · linarith
  · linarith
  · linarith [not_lt.mp h2]

theorem turnClamp_ub (ms raw : ℝ) (h : 0 ≤ ms) : turnClamp ms raw ≤ ms := by
  rw [turnClamp]
  split_ifs with h1 h2
  · linarith
  · linarith
  · linarith [not_lt.mp h1]

theorem turnClamp_id (ms raw : ℝ) (h1 : -ms ≤ raw) (h2 : raw ≤ ms) : turnClamp ms raw = raw := by
  rw [turnClamp, if_neg (not_lt.mpr h2), if_neg (not_lt.mpr h1)]

theorem closeAfter_true (cfg : MoveToCfg) (st : MoveToState) (inp : MoveToIn)
    (h : st.close = true) : (moveToTick cfg st inp).closeAfter = true := by
  simp only [moveToTick]
  split_ifs with h1
  · rfl
  · exact h

theorem closeAfter_iff (cfg : MoveToCfg) (st : MoveToState) (inp : MoveToIn) :
    (moveToTick cfg st inp).closeAfter = true ↔
      ((normPose inp.pose).dist cfg.target < 7.5 ∨ st.close = true) := by
  simp only [moveToTick]
  split_ifs with h1
  · simp [h1]
  · simp [h1]

theorem carrot_of_close (cfg : MoveToCfg) (st : MoveToState) (inp : MoveToIn)
    (h : st.close = true) : (moveToTick cfg st inp).carrot = cfg.target := by
  simp only [moveToTick, h, if_true]

theorem maxSpeedAfter_near (cfg : MoveToCfg) (st : MoveToState) (inp : MoveToIn)
    (hd : (normPose inp.pose).dist cfg.target < 7.5) :
    (moveToTick cfg st inp).maxSpeedAfter = max 30 |st.prevLateralPower| := by
  simp only [moveToTick]
  rw [if_pos hd]
  rcases le_or_lt 30 |st.prevLateralPower| with h | h
  · rw [if_neg (not_lt.mpr h), max_eq_right h]
  · rw [if_pos h, max_eq_left h.le]

theorem maxSpeedAfter_pos (cfg : MoveToCfg) (st : MoveToState) (inp : MoveToIn)
    (hms : 0 < st.maxSpeed) : 0 < (moveToTick cfg st inp).maxSpeedAfter := by
  simp only [moveToTick]
  split_ifs with h1 h2
  · norm_num
  · linarith [not_lt.mp h2]
  · exact hms

theorem closeRun_mono (cfg : MoveToCfg) (ms0 : ℝ) (inputs : ℕ → MoveToIn) (m n : ℕ)
    (hmn : m ≤ n) (hm : (moveToRun cfg ms0 inputs m).close = true) :
    (moveToRun cfg ms0 inputs n).close = true := by
  induction n, hmn using Nat.le_induction with
  | base => exact hm
  | succ n hmn ih => exact closeAfter_true _ _ _ ih

theorem closeRun_iff (cfg : MoveToCfg) (ms0 : ℝ) (inputs : ℕ → MoveToIn) (n : ℕ) :
    (moveToRun cfg ms0 inputs n).close = true ↔
      ∃ m, m < n ∧ (normPose (inputs m).pose).dist cfg.target < 7.5 := by
  induction n with
  | zero =>
    simp [moveToRun]
  | succ n ih =>
    have hstep : (moveToRun cfg ms0 inputs (n + 1)).close =
        (moveToTick cfg (moveToRun cfg ms0 inputs n) (inputs n)).closeAfter := rfl
    rw [hstep]
    constructor
    · intro h
      rcases (closeAfter_iff _ _ _).mp h with hd | hc
      · exact ⟨n, Nat.lt_succ_self n, hd⟩
      · rcases ih.mp hc with ⟨m, hm, hdm⟩
        exact ⟨m, Nat.lt_succ_of_lt hm, hdm⟩
    · rintro ⟨m, hm, hdm⟩
      rcases Nat.lt_succ_iff_lt_or_eq.mp hm with hlt | heq
      · exact (closeAfter_iff _ _ _).mpr (Or.inr (ih.mpr ⟨m, hlt, hdm⟩))
      · subst heq
        exact (closeAfter_iff _ _ _).mpr (Or.inl hdm)

theorem turnToLoop_last (x y : ℝ) (rev : Bool) (ms : ℝ) (inputs : ℕ → TurnToIn)
    (comp : ℕ → ℕ) (settled : ℕ → Bool) (c0 : ℕ) :
    ∀ fuel n acc cmds, turnToLoop x y rev ms inputs comp settled c0 fuel n acc = some cmds →
      cmds.getLast? = some (0, 0) := by
  intro fuel
  induction fuel with
  | zero =>
    intro n acc cmds h
    simp [turnToLoop] at h
  | succ fuel ih =>
    intro n acc cmds h
    simp only [turnToLoop] at h
    split_ifs at h with hc
    · exact ih _ _ _ h
    · injection h with h
      subst h
      exact lastOfAppendZero acc

theorem moveToLoop_last (cfg : MoveToCfg) (inputs : ℕ → MoveToIn) (comp : ℕ → ℕ)
    (settled : ℕ → Bool) (c0 : ℕ) :
    ∀ fuel n st acc cmds, moveToLoop cfg inputs comp settled c0 fuel n st acc = some cmds →
      cmds.getLast? = some (0, 0) := by
  intro fuel
  induction fuel with
  | zero =>
    intro n st acc cmds h
    simp [moveToLoop] at h
  | succ fuel ih =>
    intro n st acc cmds h
    simp only [moveToLoop] at h
    split_ifs at h with hc
    · exact ih _ _ _ _ h
    · injection h with h
      subst h
      exact lastOfAppendZero acc

theorem moveToExit_guard (comp : ℕ → ℕ) (settled : ℕ → Bool) (c0 : ℕ) :
    ∀ fuel n0 n, moveToExit comp settled c0 fuel n0 = some n →
      ¬(comp n = c0 ∧ (settled n = false ∨ 10 * n < 300)) := by
  intro fuel
  induction fuel with
  | zero =>
    intro n0 n h
    simp [moveToExit] at h
  | succ fuel ih =>
    intro n0 n h
    simp only [moveToExit] at h
    split_ifs at h with hc
    · exact ih _ _ h
    · injection h with h
      subst h
      exact hc

/-- C1: whenever a run of the turn-to-point or move-to-pose loop exits — because the
controller reported settled (the controller's own timeout forces settling), or the
competition status changed from its snapshot — the last commanded power pair is (0, 0):
chassis.cpp lines 172-174 and 278-280 command zero power to both sides unconditionally
after the loop, so the drivetrain is never left at the last nonzero commanded power. -/
theorem C1_zero_power_on_exit :
    (∀ (x y : ℝ) (rev : Bool) (ms : ℝ) (inputs : ℕ → TurnToIn) (comp : ℕ → ℕ)
        (settled : ℕ → Bool) (c0 fuel n : ℕ) (acc : List (ℝ × ℝ)) (cmds : List (ℝ × ℝ)),
      turnToLoop x y rev ms inputs comp settled c0 fuel n acc = some cmds →
      cmds.getLast? = some (0, 0)) ∧
    (∀ (cfg : MoveToCfg) (inputs : ℕ → MoveToIn) (comp : ℕ → ℕ) (settled : ℕ → Bool)
        (c0 fuel n : ℕ) (st : MoveToState) (acc : List (ℝ × ℝ)) (cmds : List (ℝ × ℝ)),
      moveToLoop cfg inputs comp settled c0 fuel n st acc = some cmds →
      cmds.getLast? = some (0, 0)) :=
  ⟨fun x y rev ms inputs comp settled c0 fuel n acc cmds h =>
    turnToLoop_last x y rev ms inputs comp settled c0 fuel n acc cmds h,
   fun cfg inputs comp settled c0 fuel n st acc cmds h =>
    moveToLoop_last cfg inputs comp settled c0 fuel n st acc cmds h⟩

/-- Witness for C1: a turn loop that is settled at its first check exits with the single
command (0, 0); a moveTo loop whose competition status no longer matches its snapshot
exits appending (0, 0) to the already-issued commands. -/
theorem C1_zero_power_on_exit_witness :
    List.getLast? [((0 : ℝ), (0 : ℝ))] = some (0, 0) ∧
    List.getLast? [((1 : ℝ), (2 : ℝ)), ((0 : ℝ), (0 : ℝ))] = some (0, 0) := by
  constructor
  · exact C1_zero_power_on_exit.1 0 0 false 200 (fun _ => ⟨⟨0, 0, 0⟩, fun _ => 0⟩)
      (fun _ => 0) (fun _ => true) 0 1 0 [] [((0 : ℝ), (0 : ℝ))] (by simp [turnToLoop])
  · exact C1_zero_power_on_exit.2 cfgB inputsB (fun _ => 0) (fun _ => true) 1 1 0 stA
      [((1 : ℝ), (2 : ℝ))] [((1 : ℝ), (2 : ℝ)), ((0 : ℝ), (0 : ℝ))] (by simp [moveToLoop])

/-- C9: if the competition status never changes, the move-to-pose loop cannot exit before
300 ms (30 ticks of the 10 ms delay) have elapsed, even if the lateral controller reports
settled from the very first tick — the guard of chassis.cpp line 208 keeps running while
`millis() - start < 300`. -/
theorem C9_no_exit_before_300ms (comp : ℕ → ℕ) (settled : ℕ → Bool) (c0 fuel n : ℕ)
    (hcomp : ∀ k, comp k = c0) (h : moveToExit comp settled c0 fuel 0 = some n) :
    300 ≤ 10 * n := by
  have hg := moveToExit_guard comp settled c0 fuel 0 n h
  push_neg at hg
  rcases hg (hcomp n) with ⟨-, h2⟩
  exact h2

/-- Witness for C9: with a constant competition status and an always-settled controller,
the loop exits exactly at tick 30, that is at 300 ms. -/
theorem C9_no_exit_before_300ms_witness :
    (∀ k : ℕ, (fun _ : ℕ => 0) k = 0) ∧
    moveToExit (fun _ => 0) (fun _ => true) 0 31 0 = some 30 ∧ 300 ≤ 10 * 30 :=
  ⟨fun _ => rfl, by decide,
   C9_no_exit_before_300ms (fun _ => 0) (fun _ => true) 0 31 30 (fun _ => rfl) (by decide)⟩

/-- C10: within one move-to-pose call the close flag is monotone — once the robot has been
observed within the proximity threshold, every subsequent tick stays in close mode and
uses the collapsed carrot (the literal target pose), even if the robot later moves farther
away (the flag of chassis.cpp line 253 is never reset inside the loop). -/
theorem C10_close_monotone (cfg : MoveToCfg) (ms0 : ℝ) (inputs : ℕ → MoveToIn) (m n : ℕ)
    (hmn : m ≤ n) (hm : (moveToRun cfg ms0 inputs m).close = true) :
    (moveToRun cfg ms0 inputs n).close = true ∧
    (moveToTick cfg (moveToRun cfg ms0 inputs n) (inputs n)).carrot = cfg.target := by
  have hc := closeRun_mono cfg ms0 inputs m n hmn hm
  exact ⟨hc, carrot_of_close _ _ _ hc⟩

/-- Witness for C10 on a concrete run that enters close mode after its first tick. -/
theorem C10_close_monotone_witness :
    1 ≤ 2 ∧ (moveToRun cfgB 127 inputsB 1).close = true ∧
    ((moveToRun cfgB 127 inputsB 2).close = true ∧
     (moveToTick cfgB (moveToRun cfgB 127 inputsB 2) (inputsB 2)).carrot = cfgB.target) := by
  have h1 : moveToRun cfgB 127 inputsB 1 = moveToNext (moveToTick cfgB stA inpB) := rfl
  have hclose : (moveToRun cfgB 127 inputsB 1).close = true := by
    rw [h1, tickB_eval]
    rfl
  exact ⟨by norm_num, hclose, C10_close_monotone cfgB 127 inputsB 1 2 (by norm_num) hclose⟩

/-- C3 counterexample: on the tick at which the robot is first observed within the 7.5
proximity threshold, the carrot has already been computed from the not-yet-set close flag
(chassis.cpp line 252 runs after lines 213-220), so it is not the target pose on that
tick: here the robot starts 5 units from the target with lead 1/2 and the first carrot is
2.5 units behind the target. -/
theorem C3_counterexample :
    (normPose (inputsC 0).pose).dist cfgC.target < 7.5 ∧
    (moveToTick cfgC (moveToRun cfgC 127 inputsC 0) (inputsC 0)).carrot ≠ cfgC.target := by
  refine ⟨by rw [distC_eval]; norm_num, fun h => ?_⟩
  have hy := congrArg Pose.y h
  rw [carrotC_y] at hy
  have hty : cfgC.target.y = 0 := rfl
  rw [hty] at hy
  norm_num at hy

/-- C3 (amended): the close flag of tick n is set exactly when some earlier tick observed
distance-to-target below 7.5; on any tick that observes distance below 7.5 (in particular
on entering close mode) the speed cap for the following ticks becomes max(30, previous
tick's lateral power magnitude); and from the tick after the first sub-threshold
observation onward — not from that tick itself — the carrot is the literal target pose. -/
theorem C3_close_mode_amended (cfg : MoveToCfg) (ms0 : ℝ) (inputs : ℕ → MoveToIn) :
    (∀ n, (moveToRun cfg ms0 inputs n).close = true ↔
      ∃ m, m < n ∧ (normPose (inputs m).pose).dist cfg.target < 7.5) ∧
    (∀ n, (normPose (inputs n).pose).dist cfg.target < 7.5 →
      (moveToRun cfg ms0 inputs (n + 1)).maxSpeed =
        max 30 |(moveToRun cfg ms0 inputs n).prevLateralPower|) ∧
    (∀ n m, m < n → (normPose (inputs m).pose).dist cfg.target < 7.5 →
      (moveToTick cfg (moveToRun cfg ms0 inputs n) (inputs n)).carrot = cfg.target) := by
  refine ⟨closeRun_iff cfg ms0 inputs, ?_, ?_⟩
  · intro n hd
    exact maxSpeedAfter_near cfg (moveToRun cfg ms0 inputs n) (inputs n) hd
  · intro n m hmn hd
    have hm1 : (moveToRun cfg ms0 inputs (m + 1)).close = true :=
      (closeAfter_iff cfg (moveToRun cfg ms0 inputs m) (inputs m)).mpr (Or.inl hd)
    exact carrot_of_close _ _ _ (closeRun_mono cfg ms0 inputs (m + 1) n hmn hm1)

/-- Witness for the amended C3 on the concrete run entering close mode at tick 0. -/
theorem C3_close_mode_amended_witness :
    0 < 1 ∧ (normPose (inputsB 0).pose).dist cfgB.target < 7.5 ∧
    (moveToTick cfgB (moveToRun cfgB 127 inputsB 1) (inputsB 1)).carrot = cfgB.target := by
  have hpi := Real.pi_pos
  have hfm : fmodR 0 (2 * Real.pi) = 0 := fmodR_eq_self _ _ le_rfl (by linarith)
  have h25 : Real.sqrt 25 = 5 := sqrt_eval 25 5 (by norm_num) (by norm_num)
  have hd : (normPose (inputsB 0).pose).dist cfgB.target < 7.5 := by
    norm_num [inputsB, inpB, cfgB, normPose, Pose.dist, hfm, h25]
  exact ⟨by norm_num, hd, (C3_close_mode_amended cfgB 127 inputsB).2.2 1 0 (by norm_num) hd⟩

/-- C2 counterexample: at a concrete tick (robot at the origin facing heading 7π/4,
target at (10, 0)) the reversed candidate is the chosen angular error, but chassis.cpp
line 226 computes the lateral error with the cosine of the forward candidate, so the
lateral error is the negation of distance-to-carrot times the cosine of the chosen
angular error rather than that product itself. -/
theorem C2_counterexample :
    ¬((moveToTick cfgA stA inpA).lateralError =
      (moveToTick cfgA stA inpA).pose.dist (moveToTick cfgA stA inpA).carrot *
        Real.cos ((moveToTick cfgA stA inpA).angularError)) := by
  intro h
  have h2 : 0 < Real.sqrt 2 := Real.sqrt_pos.mpr (by norm_num)
  have h100 : Real.sqrt 100 = 10 := sqrt_eval 100 10 (by norm_num) (by norm_num)
  rw [tickA_eval] at h
  norm_num [Pose.dist, h100, Real.cos_neg, Real.cos_pi_div_four] at h
  nlinarith [h2, h]

/-- C2 (amended): in every tick outside close mode, the angular error is the
smaller-magnitude of the two candidates (the reversed one on ties), and the lateral error
is distance-to-carrot times the cosine of the FORWARD candidate — equal in absolute value
to distance times the cosine of the chosen angular error, but negated whenever the
reversed candidate is chosen. -/
theorem C2_errors_amended (cfg : MoveToCfg) (st : MoveToState) (inp : MoveToIn)
    (h : st.close = false) :
    ((moveToTick cfg st inp).angularError =
      chooseAngle
        (angleErrorRad (moveToTick cfg st inp).carrot.theta (moveToTick cfg st inp).pose.theta)
        (angleErrorRad ((moveToTick cfg st inp).carrot.theta + Real.pi)
          (moveToTick cfg st inp).pose.theta)) ∧
    (|(moveToTick cfg st inp).angularError| =
      min |angleErrorRad (moveToTick cfg st inp).carrot.theta (moveToTick cfg st inp).pose.theta|
        |angleErrorRad ((moveToTick cfg st inp).carrot.theta + Real.pi)
          (moveToTick cfg st inp).pose.theta|) ∧
    ((moveToTick cfg st inp).lateralError =
      (moveToTick cfg st inp).pose.dist (moveToTick cfg st inp).carrot *
        Real.cos (angleErrorRad (moveToTick cfg st inp).carrot.theta
          (moveToTick cfg st inp).pose.theta)) ∧
    (|(moveToTick cfg st inp).lateralError| =
      (moveToTick cfg st inp).pose.dist (moveToTick cfg st inp).carrot *
        |Real.cos ((moveToTick cfg st inp).angularError)|) := by
  simp only [moveToTick, h, Bool.false_eq_true, if_false]
  refine ⟨trivial, abs_chooseAngle _ _, trivial, ?_⟩
  rw [abs_mul, abs_of_nonneg (distNonneg _ _), abs_cos_chooseAngle]

/-- Witness for the amended C2 at the concrete non-close tick used for the
counterexample. -/
theorem C2_errors_amended_witness :
    stA.close = false ∧
    (((moveToTick cfgA stA inpA).angularError =
      chooseAngle
        (angleErrorRad (moveToTick cfgA stA inpA).carrot.theta (moveToTick cfgA stA inpA).pose.theta)
        (angleErrorRad ((moveToTick cfgA stA inpA).carrot.theta + Real.pi)
          (moveToTick cfgA stA inpA).pose.theta)) ∧
    (|(moveToTick cfgA stA inpA).angularError| =
      min |angleErrorRad (moveToTick cfgA stA inpA).carrot.theta (moveToTick cfgA stA inpA).pose.theta|
        |angleErrorRad ((moveToTick cfgA stA inpA).carrot.theta + Real.pi)
          (moveToTick cfgA stA inpA).pose.theta|) ∧
    ((moveToTick cfgA stA inpA).lateralError =
      (moveToTick cfgA stA inpA).pose.dist (moveToTick cfgA stA inpA).carrot *
        Real.cos (angleErrorRad (moveToTick cfgA stA inpA).carrot.theta
          (moveToTick cfgA stA inpA).pose.theta)) ∧
    (|(moveToTick cfgA stA inpA).lateralError| =
      (moveToTick cfgA stA inpA).pose.dist (moveToTick cfgA stA inpA).carrot *
        |Real.cos ((moveToTick cfgA stA inpA).angularError)|)) :=
  ⟨rfl, C2_errors_amended cfgA stA inpA rfl⟩

/-- C4: in every tick outside close mode the carrot position is the target position offset
backward along the target heading by lead times the current distance from target to robot
(chassis.cpp lines 213-215); with lead = 0 the carrot position is the target position. -/
theorem C4_carrot_formula (cfg : MoveToCfg) (st : MoveToState) (inp : MoveToIn)
    (h : st.close = false) :
    ((moveToTick cfg st inp).carrot.x =
      cfg.target.x - Real.sin cfg.target.theta * cfg.lead * cfg.target.dist (normPose inp.pose)) ∧
    ((moveToTick cfg st inp).carrot.y =
      cfg.target.y - Real.cos cfg.target.theta * cfg.lead * cfg.target.dist (normPose inp.pose)) ∧
    (cfg.lead = 0 →
      (moveToTick cfg st inp).carrot.x = cfg.target.x ∧
      (moveToTick cfg st inp).carrot.y = cfg.target.y) := by
  simp only [moveToTick, h, Bool.false_eq_true, if_false, boomerangCarrot]
  refine ⟨trivial, trivial, fun h0 => ?_⟩
  rw [h0]
  constructor <;> ring

/-- Witness for C4 at a concrete non-close tick. -/
theorem C4_carrot_formula_witness :
    stA.close = false ∧
    (((moveToTick cfgB stA inpB).carrot.x =
      cfgB.target.x - Real.sin cfgB.target.theta * cfgB.lead * cfgB.target.dist (normPose inpB.pose)) ∧
    ((moveToTick cfgB stA inpB).carrot.y =
      cfgB.target.y - Real.cos cfgB.target.theta * cfgB.lead * cfgB.target.dist (normPose inpB.pose)) ∧
    (cfgB.lead = 0 →
      (moveToTick cfgB stA inpB).carrot.x = cfgB.target.x ∧
      (moveToTick cfgB stA inpB).carrot.y = cfgB.target.y)) :=
  ⟨rfl, C4_carrot_formula cfgB stA inpB rfl⟩

/-- C5 counterexample: with an angular PID output of 200 (moveTo never clamps the angular
controller output) and a lateral power of 50 against the cap 127, the overturn correction
of chassis.cpp lines 248-249 overshoots past zero: afterwards the combined magnitude is
273, still above the cap, so the claimed bound fails. -/
theorem C5_counterexample :
    stA.maxSpeed <
      |(moveToTick cfgB stA inpD).angularPower| + |(moveToTick cfgB stA inpD).lateralPowerPre| ∧
    ¬(|(moveToTick cfgB stA inpD).angularPower| + |(moveToTick cfgB stA inpD).lateralPower| ≤
      stA.maxSpeed) := by
  rw [tickD_eval]
  have ha200 : |(200 : ℝ)| = 200 := abs_of_nonneg (by norm_num)
  have ha50 : |(50 : ℝ)| = 50 := abs_of_nonneg (by norm_num)
  have ha73 : |(-73 : ℝ)| = 73 := by rw [abs_of_nonpos (by norm_num)]; norm_num
  norm_num [stA, ha200, ha50, ha73]

/-- C5 (amended): whenever |angularPower| + |lateralPower| exceeds the speed cap, the
correction subtracts sign(lateral) times the excess from the lateral power and leaves the
angular power untouched; provided |angularPower| does not itself exceed the cap, the
corrected |angularPower| + |lateralPower| is then exactly the cap (when |angularPower|
exceeds the cap — possible, since moveTo never clamps the angular controller — the
corrected sum can still exceed the cap). -/
theorem C5_overturn_amended (cfg : MoveToCfg) (st : MoveToState) (inp : MoveToIn)
    (h : 0 < (moveToTick cfg st inp).overturn) :
    ((moveToTick cfg st inp).lateralPower =
      (moveToTick cfg st inp).lateralPowerPre -
        sgn (moveToTick cfg st inp).lateralPowerPre * (moveToTick cfg st inp).overturn) ∧
    ((moveToTick cfg st inp).angularPower =
      inp.angPID (radToDeg (moveToTick cfg st inp).angularError)) ∧
    (|(moveToTick cfg st inp).angularPower| ≤ st.maxSpeed →
      |(moveToTick cfg st inp).angularPower| + |(moveToTick cfg st inp).lateralPower| =
        st.maxSpeed) := by
  simp only [moveToTick] at h ⊢
  exact ⟨overturnFix_eq _ _ _ h, trivial, fun ha => overturnFix_sum _ _ _ h ha⟩

/-- Witness for the amended C5: overturn 23 with angular power 100 below the cap 127 ends
at combined magnitude exactly 127. -/
theorem C5_overturn_amended_witness :
    0 < (moveToTick cfgB stA inpD2).overturn ∧
    |(moveToTick cfgB stA inpD2).angularPower| ≤ stA.maxSpeed ∧
    |(moveToTick cfgB stA inpD2).angularPower| + |(moveToTick cfgB stA inpD2).lateralPower| =
      stA.maxSpeed := by
  have ha100 : |(100 : ℝ)| = 100 := abs_of_nonneg (by norm_num)
  have hov : 0 < (moveToTick cfgB stA inpD2).overturn := by
    rw [tickD2_eval]
    norm_num
  have hle : |(moveToTick cfgB stA inpD2).angularPower| ≤ stA.maxSpeed := by
    rw [tickD2_eval]
    norm_num [stA, ha100]
  exact ⟨hov, hle, (C5_overturn_amended cfgB stA inpD2 hov).2.2 hle⟩

/-- C6: the per-side powers are lateral + angular (left) and lateral - angular (right);
when either side's magnitude exceeds the current (post-close-update) speed cap, both are
divided by max(|left|, |right|)/cap, so the larger side's magnitude becomes exactly the
cap and the left-to-right power ratio is preserved (chassis.cpp lines 257-266). -/
theorem C6_side_powers_rescale (cfg : MoveToCfg) (st : MoveToState) (inp : MoveToIn)
    (hms : 0 < st.maxSpeed)
    (h : (moveToTick cfg st inp).maxSpeedAfter <
      max |(moveToTick cfg st inp).leftPowerPre| |(moveToTick cfg st inp).rightPowerPre|) :
    ((moveToTick cfg st inp).leftPowerPre =
      (moveToTick cfg st inp).lateralPower + (moveToTick cfg st inp).angularPower) ∧
    ((moveToTick cfg st inp).rightPowerPre =
      (moveToTick cfg st inp).lateralPower - (moveToTick cfg st inp).angularPower) ∧
    ((moveToTick cfg st inp).leftPower =
      (moveToTick cfg st inp).leftPowerPre / (moveToTick cfg st inp).powerScale) ∧
    ((moveToTick cfg st inp).rightPower =
      (moveToTick cfg st inp).rightPowerPre / (moveToTick cfg st inp).powerScale) ∧
    (max |(moveToTick cfg st inp).leftPower| |(moveToTick cfg st inp).rightPower| =
      (moveToTick cfg st inp).maxSpeedAfter) ∧
    ((moveToTick cfg st inp).leftPower * (moveToTick cfg st inp).rightPowerPre =
      (moveToTick cfg st inp).leftPowerPre * (moveToTick cfg st inp).rightPower) := by
  have hcap := maxSpeedAfter_pos cfg st inp hms
  simp only [moveToTick] at h hcap ⊢
  have hsc := (one_lt_div hcap).mpr h
  have hmax := scalePowers_max _ _ _ hcap h
  exact ⟨trivial, trivial, by rw [scalePowers_eq _ _ _ hsc], by rw [scalePowers_eq _ _ _ hsc],
    hmax.1, hmax.2⟩

/-- Witness for C6 at a concrete tick where entering close mode tightens the cap to 30
below the side powers of 100, forcing the proportional rescale. -/
theorem C6_side_powers_rescale_witness :
    0 < stA.maxSpeed ∧
    (moveToTick cfgB stA inpB).maxSpeedAfter <
      max |(moveToTick cfgB stA inpB).leftPowerPre| |(moveToTick cfgB stA inpB).rightPowerPre| ∧
    max |(moveToTick cfgB stA inpB).leftPower| |(moveToTick cfgB stA inpB).rightPower| =
      (moveToTick cfgB stA inpB).maxSpeedAfter := by
  have hms : 0 < stA.maxSpeed := by norm_num [stA]
  have ha100 : |(100 : ℝ)| = 100 := abs_of_nonneg (by norm_num)
  have h : (moveToTick cfgB stA inpB).maxSpeedAfter <
      max |(moveToTick cfgB stA inpB).leftPowerPre| |(moveToTick cfgB stA inpB).rightPowerPre| := by
    rw [tickB_eval]
    norm_num [ha100]
  exact ⟨hms, h, (C6_side_powers_rescale cfgB stA inpB hms h).2.2.2.2.1⟩

/-- C7: in every turn-to-point tick the angular controller output is clamped to
[-maxSpeed, maxSpeed] before being commanded (chassis.cpp lines 162-163, identity inside
the range), and the power commanded to the left side is the exact negative of the power
commanded to the right side (lines 166-167). -/
theorem C7_turnTo_clamp_opposite (x y : ℝ) (rev : Bool) (ms : ℝ) (inp : TurnToIn)
    (h : 0 ≤ ms) :
    ((turnToTick x y rev ms inp).leftPower = -(turnToTick x y rev ms inp).rightPower) ∧
    (-ms ≤ (turnToTick x y rev ms inp).rightPower) ∧
    ((turnToTick x y rev ms inp).rightPower ≤ ms) ∧
    ((turnToTick x y rev ms inp).rightPower = turnClamp ms (turnToTick x y rev ms inp).rawPower) ∧
    (-ms ≤ (turnToTick x y rev ms inp).rawPower → (turnToTick x y rev ms inp).rawPower ≤ ms →
      (turnToTick x y rev ms inp).rightPower = (turnToTick x y rev ms inp).rawPower) := by
  simp only [turnToTick]
  exact ⟨trivial, turnClamp_lb _ _ h, turnClamp_ub _ _ h, trivial,
    fun h1 h2 => turnClamp_id _ _ h1 h2⟩

/-- Witness for C7 at a concrete tick with a raw controller output of 300 against the
cap 200. -/
theorem C7_turnTo_clamp_opposite_witness :
    (0 : ℝ) ≤ 200 ∧
    (((turnToTick 0 0 false 200 ⟨⟨0, 0, 0⟩, fun _ => 300⟩).leftPower =
      -(turnToTick 0 0 false 200 ⟨⟨0, 0, 0⟩, fun _ => 300⟩).rightPower) ∧
    (-(200 : ℝ) ≤ (turnToTick 0 0 false 200 ⟨⟨0, 0, 0⟩, fun _ => 300⟩).rightPower) ∧
    ((turnToTick 0 0 false 200 ⟨⟨0, 0, 0⟩, fun _ => 300⟩).rightPower ≤ 200) ∧
    ((turnToTick 0 0 false 200 ⟨⟨0, 0, 0⟩, fun _ => 300⟩).rightPower =
      turnClamp 200 (turnToTick 0 0 false 200 ⟨⟨0, 0, 0⟩, fun _ => 300⟩).rawPower) ∧
    (-(200 : ℝ) ≤ (turnToTick 0 0 false 200 ⟨⟨0, 0, 0⟩, fun _ => 300⟩).rawPower →
      (turnToTick 0 0 false 200 ⟨⟨0, 0, 0⟩, fun _ => 300⟩).rawPower ≤ 200 →
      (turnToTick 0 0 false 200 ⟨⟨0, 0, 0⟩, fun _ => 300⟩).rightPower =
        (turnToTick 0 0 false 200 ⟨⟨0, 0, 0⟩, fun _ => 300⟩).rawPower)) :=
  ⟨by norm_num, C7_turnTo_clamp_opposite 0 0 false 200 ⟨⟨0, 0, 0⟩, fun _ => 300⟩ (by norm_num)⟩

/-- C8: the free-template access path `gyroGetRotation` of gyro.hpp line 14 is declared
returning bool, so through the TypeErasedGyro and AnyGyro paths every rotation reading
collapses to 0 or 1 — at the reading 6.28 (about 2π radians) the AnyGyro path yields 1 —
contradicting the interface's own documentation and the Gyro base class, which promise an
unbounded float rotation in radians. -/
theorem C8_gyro_rotation_bool :
    anyGyroGetRotation (628 / 100) = 1 ∧ (628 / 100 : ℚ) ≠ 1 ∧
    ∀ r : ℚ, anyGyroGetRotation r = 0 ∨ anyGyroGetRotation r = 1 := by
  refine ⟨by norm_num [anyGyroGetRotation, typeErasedGyroGetRotation, gyroGetRotation,
    decide_eq_true_eq], by norm_num, ?_⟩
  intro r
  rw [anyGyroGetRotation, typeErasedGyroGetRotation]
  split_ifs
  · right
    rfl
  · left
    rfl

end LemLib
